import Mathlib

/-!
Verification development for the KVM keep core of the enarx repository
(`src/backend/kvm/vm.rs`) and the SGX probe datum `epc_size`
(`src/backend/sgx/data.rs`).

The Rust code is shallowly embedded: machine integers (`u64`, `u32`) are
natural numbers reduced modulo `2^64` / `2^32` exactly where the source
performs wrapping arithmetic or casts; fallible foreign calls (mmap, the
KVM ioctls) are passed in as explicit outcome parameters; Rust panics
(`unwrap`, indexing, `unimplemented!`) are an explicit `panic` outcome.
The submodules `mem.rs` (`Region`) and `cpu.rs` (`Allocator`, `Cpu`) of
`vm.rs` are not among the sources; their behaviour is modelled from the
specification where noted.
-/

/-- Modulus `2^64` of Rust `u64` arithmetic. -/
def U64 : Nat := 2 ^ 64

/-- Modulus `2^32` of Rust `u32` arithmetic. -/
def U32 : Nat := 2 ^ 32

/-- The kinds of Rust panic the embedded code can raise. -/
inductive Panic where
  | unwrapNone        -- `Option::unwrap` on `None` (`self.regions.last().unwrap()`)
  | indexOutOfBounds  -- slice indexing out of bounds (`keep.regions[0]`)
  | unimplemented     -- the `unimplemented!()` macro
  | prefixMissing     -- `prefix_mut()` on a region that carries no prefix
  deriving DecidableEq, Repr

/-- An abstract foreign-call error (`anyhow::Error` / `kvm_ioctls` errors),
identified by a code. -/
structure Err where
  code : Nat
  deriving DecidableEq, Repr

/-- Outcome of running a piece of Rust code that may return `Err` or panic. -/
inductive RustOutcome (α : Type) where
  | ok : α → RustOutcome α
  | err : Err → RustOutcome α
  | panic : Panic → RustOutcome α
  deriving DecidableEq, Repr

/-- Descriptor `kvm_bindings::kvm_userspace_memory_region` handed to
`KVM_SET_USER_MEMORY_REGION` and stored inside a `Region`
(fields as in `vm.rs` lines 52–58). -/
structure KvmUserspaceMemoryRegion where
  slot : Nat             -- u32 in the binding; `self.regions.len() as _`
  flags : Nat
  guest_phys_addr : Nat  -- u64
  memory_size : Nat      -- u64
  userspace_addr : Nat   -- u64, host-virtual base of the backing mapping
  deriving DecidableEq, Repr

/-- Modelled from the spec: the "prefix" structure at the start of region 0
(spec §3, §6 Builder boundary) — shared communication pages and the
top-level page table, each at a host-virtual address inside region 0's
mapping.  `mem.rs` is not among the sources; only the host-virtual
addresses that `add_thread` reads (`&prefix.shared_pages[0]`,
`&*prefix.pml4t`) are represented. -/
structure PrefixData where
  sharedPage0Addr : Nat  -- host-virtual address of `prefix.shared_pages[0]`
  pml4tAddr : Nat        -- host-virtual address of `*prefix.pml4t`
  deriving DecidableEq, Repr

/-- Modelled from the spec: `Region` (spec §3) from `mem.rs`, which is not
among the sources.  Its stored slot index is the `slot` parameter of
`Region::new` (spec §4.1); it also keeps the hypervisor memory-region
descriptor (guest-physical base/length, host-virtual base, and the slot
under which it was registered) and, for region 0 only, the prefix data.
The host-mapping release handle is tracked separately by the embedding's
release ledger. -/
structure Region where
  slot : Nat  -- stored slot index: the first argument of `Region::new`
  kvmRegion : KvmUserspaceMemoryRegion
  prefixData : Option PrefixData
  deriving DecidableEq, Repr

/-- Modelled from the spec: `Region::new(slot, descriptor, unmap_handle)`
(spec §4.1) constructs the Region from the given slot index and
descriptor.  `add_memory` (`vm.rs` line 64) passes a hard-coded `0` as
the slot.  Regions built by `add_memory` carry no prefix data (spec §3:
"at most one region (the first) carries prefix data"; region 0 is
created only by the out-of-scope builder).  The unmap handle is
accounted for by the caller's release ledger, not stored here. -/
def Region.new (slot : Nat) (descriptor : KvmUserspaceMemoryRegion) : Region :=
  { slot := slot, kvmRegion := descriptor, prefixData := none }

/-- Modelled from the spec: `Region::as_guest()` returns the region's
guest-physical range `(start, count)` (spec §4.1). -/
def Region.as_guest (r : Region) : Nat × Nat :=
  (r.kvmRegion.guest_phys_addr, r.kvmRegion.memory_size)

/-- Modelled from the spec: `Region::as_virt()` returns the region's
host-virtual range `(start, count)` (spec §4.1). -/
def Region.as_virt (r : Region) : Nat × Nat :=
  (r.kvmRegion.userspace_addr, r.kvmRegion.memory_size)

/-- Guest-physical end of a region (`start + length`, unwrapped). -/
def Region.guestEnd (r : Region) : Nat :=
  r.kvmRegion.guest_phys_addr + r.kvmRegion.memory_size

/-- State of `VirtualMachine` (`vm.rs` lines 22-29).  The `kvm` and `fd` handles are
foreign resources; their fallible operations are passed to the embedded
functions as explicit outcome parameters.  The `Allocator` (from `cpu.rs`,
not among the sources) is modelled from the spec (§3, §4.3) as a counter. -/
structure VirtualMachine where
  id_alloc : Nat         -- Id Allocator counter: next id to hand out
  regions : List Region
  shim_entry : Nat       -- PhysAddr, u64
  shim_start : Nat       -- PhysAddr, u64
  deriving DecidableEq, Repr

/-- Result of one `add_memory` call: the returned value or error/panic, the
virtual machine after the call, and the ledger of host-mapping spans
`(hostBase, size)` released during the call (by `mmap::Unmap` guards
dropped on an error path). -/
structure AddMemoryResult where
  outcome : RustOutcome Nat
  vm : VirtualMachine
  released : List (Nat × Nat)
  registered : Option KvmUserspaceMemoryRegion  -- descriptor passed to set_user_memory_region
  deriving DecidableEq, Repr

/-- Embedding of `VirtualMachine::add_memory(pages)` (`vm.rs` lines 32-67).
`mmapRes` is the outcome of the `mmap::map` foreign call (host-virtual
base address on success); `regRes` is the outcome of
`fd.set_user_memory_region`.  Wrapping `u64` arithmetic is mod `U64`.
The `mmap::Unmap` guard created on line 46 releases the mapping when
dropped; it is dropped on the early return of line 61's `?` and moved
into the new `Region` on line 64 (release-on-drop is modelled from the
spec, §4.1 and §9, as `mmap` is an external crate). -/
def VirtualMachine.add_memory (vm : VirtualMachine) (pages : Nat)
    (mmapRes : Except Err Nat) (regRes : Except Err Unit) : AddMemoryResult :=
  let mem_size := (pages % U64) * 4096 % U64
  match vm.regions.getLast? with
  | none => ⟨.panic .unwrapNone, vm, [], none⟩
  | some lastRegion =>
    let last_region := lastRegion.as_guest
    match mmapRes with
    | .error e => ⟨.err e, vm, [], none⟩
    | .ok guest_addr_start =>
      let region : KvmUserspaceMemoryRegion :=
        { slot := vm.regions.length % U32
          flags := 0
          guest_phys_addr := (last_region.1 + last_region.2) % U64
          memory_size := mem_size
          userspace_addr := guest_addr_start % U64 }
      match regRes with
      | .error e => ⟨.err e, vm, [(guest_addr_start, mem_size)], some region⟩
      | .ok _ =>
        ⟨.ok guest_addr_start,
         { vm with regions := vm.regions ++ [Region.new 0 region] }, [], some region⟩

/-- Wrapping `u64` subtraction, as performed by Rust `u64 - u64` (pointer
differences in `add_thread`, lines 83 and 91). -/
def u64sub (a b : Nat) : Nat :=
  (a % U64 + (U64 - b % U64)) % U64

/-- The vCPU general-purpose register block returned by `get_regs`
(`kvm_regs`).  Only `rsi` and `rdi` are written by `add_thread`; the rest
of the block passes through unchanged and is represented by `others`. -/
structure Regs where
  rsi : Nat     -- u64
  rdi : Nat     -- u64
  others : Nat  -- the remaining registers of the block, untouched
  deriving DecidableEq, Repr

/-- Modelled from the spec: the handle built by `Cpu::new(vcpu, id, keep,
shim_entry, cr3)` (`cpu.rs` is not among the sources; spec §3 "Virtual
CPU").  It records the numeric id, the trusted runtime's entry address,
and the page-table-base value `cr3`; the vcpu handle and the Keep
back-reference carry no data relevant to the claims. -/
structure Thread where
  id : Nat
  entry : Nat  -- keep.shim_entry
  cr3 : Nat
  deriving DecidableEq, Repr

deriving instance DecidableEq for Except

/-- Outcomes of the foreign calls made by one `add_thread` call:
`fd.create_vcpu`, `vcpu.get_regs`, `vcpu.set_regs`,
`kvm.get_supported_cpuid`, `vcpu.set_cpuid2`, and the fallible
`Cpu::new`. -/
structure ThreadOracle where
  createVcpuRes : Except Err Unit
  getRegsRes : Except Err Regs
  setRegsRes : Except Err Unit
  supportedCpuidRes : Except Err Unit
  setCpuid2Res : Except Err Unit
  cpuNewRes : Except Err Unit
  deriving DecidableEq, Repr

/-- Result of one `add_thread` call: the returned thread handle or
error/panic, the virtual machine after the call, the list of ids for
which a hypervisor vCPU handle was created (`fd.create_vcpu` succeeded),
and the register block passed to `set_regs`, when that call was reached. -/
structure AddThreadResult where
  outcome : RustOutcome Thread
  vm : VirtualMachine
  createdVcpus : List Nat
  regsWritten : Option Regs
  issuedId : Nat  -- the value returned by id_alloc.next() during the call
  deriving DecidableEq, Repr

/-- Embedding of `<RwLock<VirtualMachine> as Keep>::add_thread` (`vm.rs` lines 71-95),
embedded as a sequential state transition on the locked `VirtualMachine`
(the write lock is held for the whole call; the embedding is the body
between acquisition and release).  `id_alloc.next()` returns the counter
and increments it (modelled from the spec, §4.3, as `cpu.rs` is not among
the sources); `prefix_mut()` on a region without prefix data is a fatal
contract violation (spec §4.1, §7).  Pointer differences are wrapping
`u64` subtraction. -/
def add_thread (vm : VirtualMachine) (o : ThreadOracle) : AddThreadResult :=
  let id := vm.id_alloc
  let vmAfter := { vm with id_alloc := vm.id_alloc + 1 }
  match vm.regions[0]? with
  | none => ⟨.panic .indexOutOfBounds, vmAfter, [], none, id⟩
  | some region_zero =>
    let address_space := region_zero.as_virt
    match region_zero.prefixData with
    | none => ⟨.panic .prefixMissing, vmAfter, [], none, id⟩
    | some pfx =>
      match o.createVcpuRes with
      | .error e => ⟨.err e, vmAfter, [], none, id⟩
      | .ok _ =>
        match o.getRegsRes with
        | .error e => ⟨.err e, vmAfter, [id], none, id⟩
        | .ok regs0 =>
          if id = 0 then
            let regs : Regs :=
              { regs0 with
                rsi := vm.shim_start
                rdi := u64sub pfx.sharedPage0Addr address_space.1 }
            match o.setRegsRes with
            | .error e => ⟨.err e, vmAfter, [id], some regs, id⟩
            | .ok _ =>
              match o.supportedCpuidRes with
              | .error e => ⟨.err e, vmAfter, [id], some regs, id⟩
              | .ok _ =>
                match o.setCpuid2Res with
                | .error e => ⟨.err e, vmAfter, [id], some regs, id⟩
                | .ok _ =>
                  let cr3 := u64sub pfx.pml4tAddr address_space.1
                  match o.cpuNewRes with
                  | .error e => ⟨.err e, vmAfter, [id], some regs, id⟩
                  | .ok _ =>
                    ⟨.ok ⟨id, vm.shim_entry, cr3⟩, vmAfter, [id], some regs, id⟩
          else
            ⟨.panic .unimplemented, vmAfter, [id], none, id⟩

/-- Guest-physical end of the last region of a VM (`0` when there is none). -/
def VirtualMachine.lastEnd (vm : VirtualMachine) : Nat :=
  (vm.regions.getLast?).elim 0 Region.guestEnd

/-- The regions are guest-physically contiguous in list order: each region's
base equals the previous region's end (spec §3 Virtual Machine invariant). -/
def Chained (l : List Region) : Prop :=
  List.Chain' (fun a b => b.kvmRegion.guest_phys_addr = a.guestEnd) l

instance : DecidablePred Chained := fun l =>
  inferInstanceAs (Decidable (List.Chain'
    (fun (a b : Region) => b.kvmRegion.guest_phys_addr = a.guestEnd) l))

/-- All regions have a positive guest-physical length. -/
def SizesPos (l : List Region) : Prop :=
  ∀ r ∈ l, 0 < r.kvmRegion.memory_size

instance : DecidablePred SizesPos := fun l =>
  inferInstanceAs (Decidable (∀ r ∈ l, 0 < r.kvmRegion.memory_size))

/-- One `add_memory` call's inputs: the page count and the outcomes of its
two foreign calls. -/
structure AddMemCall where
  pages : Nat
  mmapRes : Except Err Nat
  regRes : Except Err Unit
  deriving DecidableEq, Repr

/-- Run a sequence of `add_memory` calls, collecting each call's outcome. -/
def runAddMemory : VirtualMachine → List AddMemCall →
    VirtualMachine × List (RustOutcome Nat)
  | vm, [] => (vm, [])
  | vm, c :: cs =>
    let r := vm.add_memory c.pages c.mmapRes c.regRes
    let rest := runAddMemory r.vm cs
    (rest.1, r.outcome :: rest.2)

/-- Sum of the requested extension sizes (`pages * 4096`) of a call list. -/
def totalSize (cs : List AddMemCall) : Nat :=
  cs.foldr (fun c acc => c.pages * 4096 + acc) 0

/-- Run a sequence of `add_thread` calls, collecting the id issued by the
Id Allocator during each call. -/
def runThreads : VirtualMachine → List ThreadOracle →
    VirtualMachine × List Nat
  | vm, [] => (vm, [])
  | vm, o :: os =>
    let r := add_thread vm o
    let rest := runThreads r.vm os
    (rest.1, r.issuedId :: rest.2)

/-- Result block of the `__cpuid_count` intrinsic: the four `u32`
registers. -/
structure CpuidResult where
  eax : Nat
  ebx : Nat
  ecx : Nat
  edx : Nat
  deriving DecidableEq, Repr

/-- Diagnostic record `Datum` (`crate::backend::Datum`; its defining module
is not among the sources — fields modelled from the construction sites in
`data.rs`: name, pass, info, mesg, and nested sub-data). -/
inductive Datum where
  | mk (name : String) (pass : Bool) (info : Option String)
       (mesg : Option String) (data : List Datum)

/-- Enumeration loop of `epc_size` (`data.rs` lines 147–156): starting at
subleaf 2, query CPUID leaf `0x12`, stop when `eax & 0xf != 1`, otherwise
accumulate the section size (`u64` wrapping add).  `fuel` bounds the
iteration (the Rust `for i in 2..` range over `u32` is finite); the
returned list records the subleaves queried. -/
def epcLoop (cpuid : Nat → CpuidResult) : Nat → Nat → Nat → Nat × List Nat
  | 0, _, size => (size, [])
  | fuel + 1, i, size =>
    let result := cpuid (i % U32)
    if result.eax % U32 &&& 0xf ≠ 1 then (size, [i % U32])
    else
      let low := result.ecx % U32 &&& 0xfffff000
      let high := result.edx % U32 &&& 0x000fffff
      let rest := epcLoop cpuid fuel (i + 1) ((size + ((high <<< 12) ||| low)) % U64)
      (rest.1, (i % U32) :: rest.2)

/-- Embedding of `epc_size(max)` (`data.rs` lines 140–170).  `cpuid` gives
the `__cpuid_count(0x12, i)` results by subleaf; `fmtSize` abstracts the
floating-point `humanize` + `format!` rendering of the computed size
(never reached when `max < 0x12`).  The second component is the list of
CPUID subleaves actually queried. -/
def epc_size (cpuid : Nat → CpuidResult) (fmtSize : Nat → String)
    (max : Nat) : Datum × List Nat :=
  if max ≥ 0x00000012 then
    let r := epcLoop cpuid (U32 - 2) 2 0
    (.mk "EPC Size" true (some (fmtSize r.1)) none [], r.2)
  else
    (.mk "EPC Size" false none none [], [])

/-- Ordering of two regions in guest-physical space: the first ends at or
before the second starts (disjointness) and starts strictly below it. -/
def RegionOrder (r s : Region) : Prop :=
  r.guestEnd ≤ s.kvmRegion.guest_phys_addr ∧
  r.kvmRegion.guest_phys_addr < s.kvmRegion.guest_phys_addr

/-- Helper: the Id Allocator counter is advanced exactly once, in every
branch of `add_thread`. -/
theorem add_thread_alloc_succ (vm : VirtualMachine) (o : ThreadOracle) :
    (add_thread vm o).vm.id_alloc = vm.id_alloc + 1 := by
  unfold add_thread
  dsimp only
  repeat' split
  all_goals rfl

/-- Helper: the id issued during an `add_thread` call is the counter value
at entry. -/
theorem add_thread_issued (vm : VirtualMachine) (o : ThreadOracle) :
    (add_thread vm o).issuedId = vm.id_alloc := by
  unfold add_thread
  dsimp only
  repeat' split
  all_goals rfl

/-- C6: Every `add_thread` call advances the Id Allocator exactly once,
regardless of whether the call later succeeds, errors, or panics; the id
issued during the call is the counter value at entry, so an id handed to
a failed construction is burned and never reused by a later call. -/
theorem add_thread_always_advances_allocator_once
    (vm : VirtualMachine) (o : ThreadOracle) :
    (add_thread vm o).vm.id_alloc = vm.id_alloc + 1 ∧
    (add_thread vm o).issuedId = vm.id_alloc :=
  ⟨add_thread_alloc_succ vm o, add_thread_issued vm o⟩

/-- C10: For every `max < 0x12`, `epc_size max` returns the `Datum` with
name `"EPC Size"`, `pass = false`, `info = none`, `mesg = none` and empty
`data`, and performs no CPUID enumeration (the queried-subleaf list is
empty). -/
theorem epc_size_below_minimum_leaf (cpuid : Nat → CpuidResult)
    (fmtSize : Nat → String) (max : Nat) (h : max < 0x00000012) :
    epc_size cpuid fmtSize max = (.mk "EPC Size" false none none [], []) := by
  unfold epc_size
  rw [if_neg (by omega)]

/-- Witness for C10 at `max = 0x11`. -/
theorem epc_size_below_minimum_leaf_witness :
    0x11 < 0x00000012 ∧
    epc_size (fun _ => ⟨0, 0, 0, 0⟩) (fun _ => "") 0x11 =
      (.mk "EPC Size" false none none [], []) :=
  ⟨by decide, epc_size_below_minimum_leaf (fun _ => ⟨0, 0, 0, 0⟩) (fun _ => "")
    0x11 (by decide)⟩

/-- C9: When the region list is non-empty (as holds for every constructed
`VirtualMachine`, whose builder creates region 0), the panic branches of
`add_memory` (`self.regions.last().unwrap()`) and `add_thread`
(`keep.regions[0]`) are unreachable, for every call. -/
theorem nonempty_regions_no_lookup_panics (vm : VirtualMachine)
    (pages : Nat) (m : Except Err Nat) (rr : Except Err Unit)
    (o : ThreadOracle) (hne : vm.regions ≠ []) :
    (vm.add_memory pages m rr).outcome ≠ .panic .unwrapNone ∧
    (add_thread vm o).outcome ≠ .panic .indexOutOfBounds := by
  constructor
  · unfold VirtualMachine.add_memory
    dsimp only
    cases hl : vm.regions.getLast? with
    | none => exact absurd (List.getLast?_eq_none_iff.mp hl) hne
    | some lastRegion =>
      repeat' split
      all_goals simp_all
  · cases hr : vm.regions with
    | nil => exact absurd hr hne
    | cons r0 rest =>
      unfold add_thread
      rw [hr]
      dsimp only
      repeat' split
      all_goals simp_all

/-- Witness for C9 on a one-region VM. -/
theorem nonempty_regions_no_lookup_panics_witness :
    ([⟨0, ⟨0, 0, 0, 65536, 4096⟩, some ⟨4096, 8192⟩⟩] : List Region) ≠ [] ∧
    ((VirtualMachine.add_memory
        ⟨0, [⟨0, ⟨0, 0, 0, 65536, 4096⟩, some ⟨4096, 8192⟩⟩], 10, 20⟩
        4 (.ok 1000000) (.ok ())).outcome ≠ .panic .unwrapNone ∧
      (add_thread ⟨0, [⟨0, ⟨0, 0, 0, 65536, 4096⟩, some ⟨4096, 8192⟩⟩], 10, 20⟩
        ⟨.ok (), .ok ⟨0, 0, 0⟩, .ok (), .ok (), .ok (), .ok ()⟩).outcome ≠
        .panic .indexOutOfBounds) :=
  ⟨by decide,
   nonempty_regions_no_lookup_panics
     ⟨0, [⟨0, ⟨0, 0, 0, 65536, 4096⟩, some ⟨4096, 8192⟩⟩], 10, 20⟩
     4 (.ok 1000000) (.ok ())
     ⟨.ok (), .ok ⟨0, 0, 0⟩, .ok (), .ok (), .ok (), .ok ()⟩
     (by decide)⟩

/-- Helper: wrapping `u64` subtraction agrees with natural subtraction when
no underflow occurs. -/
theorem u64sub_eq_sub (a b : Nat) (hba : b ≤ a) (ha : a < U64) :
    u64sub a b = a - b := by
  have h64 : U64 = 18446744073709551616 := by norm_num [U64]
  simp only [u64sub, h64] at *
  omega

/-- Counterexample for C1: on a VM whose next id is 1 (a second call), with
a well-formed region 0 and a hypervisor that accepts every request,
`add_thread` ends in the `unimplemented!()` panic — a runtime abort, not
an "unsupported" error return — and a hypervisor vCPU handle for id 1 was
created by the call. -/
theorem add_thread_second_call_cex :
    (add_thread ⟨1, [⟨0, ⟨0, 0, 0, 65536, 4096⟩, some ⟨4160, 8192⟩⟩], 10, 20⟩
      ⟨.ok (), .ok ⟨0, 0, 0⟩, .ok (), .ok (), .ok (), .ok ()⟩).outcome =
      .panic .unimplemented ∧
    (add_thread ⟨1, [⟨0, ⟨0, 0, 0, 65536, 4096⟩, some ⟨4160, 8192⟩⟩], 10, 20⟩
      ⟨.ok (), .ok ⟨0, 0, 0⟩, .ok (), .ok (), .ok (), .ok ()⟩).createdVcpus =
      [1] := by
  decide

/-- C1 (amended): any `add_thread` call assigned an id other than 0 never
returns success; when region 0 is present with its prefix and the
hypervisor accepts the vCPU-creation and register-read requests, the call
aborts in the `unimplemented!()` panic, and the hypervisor vCPU handle
for that id has already been created by the time of the abort. -/
theorem add_thread_nonzero_id_panics (vm : VirtualMachine) (o : ThreadOracle)
    (r0 : Region) (pfx : PrefixData) (regs0 : Regs)
    (hid : vm.id_alloc ≠ 0)
    (h0 : vm.regions[0]? = some r0)
    (hp : r0.prefixData = some pfx)
    (hc : o.createVcpuRes = .ok ())
    (hg : o.getRegsRes = .ok regs0) :
    (add_thread vm o).outcome = .panic .unimplemented ∧
    (add_thread vm o).createdVcpus = [vm.id_alloc] := by
  unfold add_thread
  simp only [h0, hp, hc, hg, if_neg hid]
  exact ⟨trivial, trivial⟩

/-- Witness for C1 (amended) at the counterexample input. -/
theorem add_thread_nonzero_id_panics_witness :
    ((1 : Nat) ≠ 0 ∧
      ([⟨0, ⟨0, 0, 0, 65536, 4096⟩, some ⟨4160, 8192⟩⟩] : List Region)[0]? =
        some ⟨0, ⟨0, 0, 0, 65536, 4096⟩, some ⟨4160, 8192⟩⟩) ∧
    (add_thread ⟨1, [⟨0, ⟨0, 0, 0, 65536, 4096⟩, some ⟨4160, 8192⟩⟩], 11, 21⟩
      ⟨.ok (), .ok ⟨5, 6, 7⟩, .ok (), .ok (), .ok (), .ok ()⟩).outcome =
      .panic .unimplemented ∧
    (add_thread ⟨1, [⟨0, ⟨0, 0, 0, 65536, 4096⟩, some ⟨4160, 8192⟩⟩], 11, 21⟩
      ⟨.ok (), .ok ⟨5, 6, 7⟩, .ok (), .ok (), .ok (), .ok ()⟩).createdVcpus =
      [1] :=
  ⟨⟨by decide, by decide⟩,
   add_thread_nonzero_id_panics
     ⟨1, [⟨0, ⟨0, 0, 0, 65536, 4096⟩, some ⟨4160, 8192⟩⟩], 11, 21⟩
     ⟨.ok (), .ok ⟨5, 6, 7⟩, .ok (), .ok (), .ok (), .ok ()⟩
     ⟨0, ⟨0, 0, 0, 65536, 4096⟩, some ⟨4160, 8192⟩⟩ ⟨4160, 8192⟩ ⟨5, 6, 7⟩
     (by decide) (by decide) rfl rfl rfl⟩

/-- C3: When the host mapping step of `add_memory` succeeds but the
hypervisor registration fails, the error is returned to the caller, the
VM (in particular its region list) is unchanged, and the created host
mapping is released by the dropped `Unmap` guard. -/
theorem add_memory_registration_failure_no_leak (vm : VirtualMachine)
    (pages a : Nat) (e : Err) (hne : vm.regions ≠ []) :
    (vm.add_memory pages (.ok a) (.error e)).outcome = .err e ∧
    (vm.add_memory pages (.ok a) (.error e)).vm = vm ∧
    (vm.add_memory pages (.ok a) (.error e)).released =
      [(a, (pages % U64) * 4096 % U64)] := by
  cases hl : vm.regions.getLast? with
  | none => exact absurd (List.getLast?_eq_none_iff.mp hl) hne
  | some lastRegion =>
    unfold VirtualMachine.add_memory
    simp only [hl]
    exact ⟨trivial, trivial, trivial⟩

/-- Witness for C3 on a one-region VM with a 4-page request. -/
theorem add_memory_registration_failure_no_leak_witness :
    ([⟨0, ⟨0, 0, 0, 65536, 4096⟩, some ⟨4160, 8192⟩⟩] : List Region) ≠ [] ∧
    (VirtualMachine.add_memory
        ⟨0, [⟨0, ⟨0, 0, 0, 65536, 4096⟩, some ⟨4160, 8192⟩⟩], 10, 20⟩
        4 (.ok 1000000) (.error ⟨7⟩)).outcome = .err ⟨7⟩ ∧
    (VirtualMachine.add_memory
        ⟨0, [⟨0, ⟨0, 0, 0, 65536, 4096⟩, some ⟨4160, 8192⟩⟩], 10, 20⟩
        4 (.ok 1000000) (.error ⟨7⟩)).vm =
      ⟨0, [⟨0, ⟨0, 0, 0, 65536, 4096⟩, some ⟨4160, 8192⟩⟩], 10, 20⟩ ∧
    (VirtualMachine.add_memory
        ⟨0, [⟨0, ⟨0, 0, 0, 65536, 4096⟩, some ⟨4160, 8192⟩⟩], 10, 20⟩
        4 (.ok 1000000) (.error ⟨7⟩)).released =
      [(1000000, (4 % U64) * 4096 % U64)] :=
  ⟨by decide,
   add_memory_registration_failure_no_leak
     ⟨0, [⟨0, ⟨0, 0, 0, 65536, 4096⟩, some ⟨4160, 8192⟩⟩], 10, 20⟩
     4 1000000 ⟨7⟩ (by decide)⟩

/-- C4: On the first `add_thread` call (id 0), when region 0 with its
prefix is present, all hypervisor calls succeed, and the prefix
addresses lie at or above region 0's host-virtual base (as pointers into
its mapping do), the register block written by `set_regs` has
`rsi = shim_start` (the trusted runtime's load/start address recorded at
construction) and `rdi = sharedPage0Addr − region-0 host base`, and the
returned handle records `cr3 = pml4tAddr − region-0 host base`. -/
theorem add_thread_first_call_boot_registers (vm : VirtualMachine)
    (o : ThreadOracle) (r0 : Region) (pfx : PrefixData) (regs0 : Regs)
    (hid : vm.id_alloc = 0)
    (h0 : vm.regions[0]? = some r0)
    (hp : r0.prefixData = some pfx)
    (hc : o.createVcpuRes = .ok ())
    (hg : o.getRegsRes = .ok regs0)
    (hs : o.setRegsRes = .ok ())
    (hq : o.supportedCpuidRes = .ok ())
    (hq2 : o.setCpuid2Res = .ok ())
    (hn : o.cpuNewRes = .ok ())
    (hb1 : r0.kvmRegion.userspace_addr ≤ pfx.sharedPage0Addr)
    (hb2 : pfx.sharedPage0Addr < U64)
    (hb3 : r0.kvmRegion.userspace_addr ≤ pfx.pml4tAddr)
    (hb4 : pfx.pml4tAddr < U64) :
    (add_thread vm o).regsWritten =
      some ⟨vm.shim_start,
            pfx.sharedPage0Addr - r0.kvmRegion.userspace_addr,
            regs0.others⟩ ∧
    (add_thread vm o).outcome =
      .ok ⟨0, vm.shim_entry,
           pfx.pml4tAddr - r0.kvmRegion.userspace_addr⟩ := by
  have e1 := u64sub_eq_sub pfx.sharedPage0Addr r0.kvmRegion.userspace_addr hb1 hb2
  have e2 := u64sub_eq_sub pfx.pml4tAddr r0.kvmRegion.userspace_addr hb3 hb4
  unfold add_thread
  simp only [h0, hp, hc, hg, hs, hq, hq2, hn, hid, if_pos, Region.as_virt, e1, e2]
  exact ⟨trivial, trivial⟩

/-- Witness for C4: region 0 host base 4096, shared page at 4160, top-level
page table at 8192; rdi offset 64 and cr3 offset 4096. -/
theorem add_thread_first_call_boot_registers_witness :
    ((0 : Nat) = 0 ∧ (4096 : Nat) ≤ 4160 ∧ (4096 : Nat) ≤ 8192) ∧
    (add_thread ⟨0, [⟨0, ⟨0, 0, 0, 65536, 4096⟩, some ⟨4160, 8192⟩⟩], 11, 21⟩
      ⟨.ok (), .ok ⟨5, 6, 7⟩, .ok (), .ok (), .ok (), .ok ()⟩).regsWritten =
      some ⟨21, 64, 7⟩ ∧
    (add_thread ⟨0, [⟨0, ⟨0, 0, 0, 65536, 4096⟩, some ⟨4160, 8192⟩⟩], 11, 21⟩
      ⟨.ok (), .ok ⟨5, 6, 7⟩, .ok (), .ok (), .ok (), .ok ()⟩).outcome =
      .ok ⟨0, 11, 4096⟩ :=
  by
  refine ⟨⟨rfl, by decide, by decide⟩, ?_⟩
  exact add_thread_first_call_boot_registers
    ⟨0, [⟨0, ⟨0, 0, 0, 65536, 4096⟩, some ⟨4160, 8192⟩⟩], 11, 21⟩
    ⟨.ok (), .ok ⟨5, 6, 7⟩, .ok (), .ok (), .ok (), .ok ()⟩
    ⟨0, ⟨0, 0, 0, 65536, 4096⟩, some ⟨4160, 8192⟩⟩ ⟨4160, 8192⟩ ⟨5, 6, 7⟩
    rfl rfl rfl rfl rfl rfl rfl rfl rfl
    (by decide) (by norm_num [U64]) (by decide) (by norm_num [U64])

/-- Counterexample for C7: after one successful `add_memory` call on a
one-region VM, the appended region sits at position 1 of the region list
and was registered with the hypervisor under slot index 1, but its
stored slot index — the first argument of `Region::new`, hard-coded `0`
at `vm.rs` line 64 — is 0, so the stored slot index does not equal the
region's position (or the registration slot). -/
theorem add_memory_stored_slot_cex :
    (VirtualMachine.add_memory
        ⟨0, [⟨0, ⟨0, 0, 0, 65536, 4096⟩, some ⟨4160, 8192⟩⟩], 10, 20⟩
        4 (.ok 1000000) (.ok ())).vm.regions.length = 2 ∧
    (VirtualMachine.add_memory
        ⟨0, [⟨0, ⟨0, 0, 0, 65536, 4096⟩, some ⟨4160, 8192⟩⟩], 10, 20⟩
        4 (.ok 1000000) (.ok ())).vm.regions[1]? =
      some ⟨0, ⟨1, 0, 65536, 16384, 1000000⟩, none⟩ ∧
    (VirtualMachine.add_memory
        ⟨0, [⟨0, ⟨0, 0, 0, 65536, 4096⟩, some ⟨4160, 8192⟩⟩], 10, 20⟩
        4 (.ok 1000000) (.ok ())).registered =
      some ⟨1, 0, 65536, 16384, 1000000⟩ ∧
    (0 : Nat) ≠ 1 := by
  decide

/-- C7 (amended): for every `add_memory` call whose host mapping succeeds,
on a VM with a non-empty region list of fewer than `2^32` regions, the
descriptor registered with the hypervisor carries slot index
`regions.len()` — the current region count, which is the position the
new region takes in the region list when registration succeeds — but the
appended `Region`'s stored slot index is the hard-coded `0` of
`Region::new(0, region, unmap)` at `vm.rs` line 64, not its position
(its descriptor still records the registration slot). -/
theorem add_memory_registered_slot_position (vm : VirtualMachine)
    (pages a : Nat) (regRes : Except Err Unit)
    (hne : vm.regions ≠ []) (hlen : vm.regions.length < U32) :
    (∀ d, (vm.add_memory pages (.ok a) regRes).registered = some d →
      d.slot = vm.regions.length) ∧
    (regRes = .ok () →
      ∃ r, (vm.add_memory pages (.ok a) regRes).vm.regions =
          vm.regions ++ [r] ∧
        r.kvmRegion.slot = vm.regions.length ∧ r.slot = 0) := by
  have hmod : vm.regions.length % U32 = vm.regions.length :=
    Nat.mod_eq_of_lt hlen
  cases hl : vm.regions.getLast? with
  | none => exact absurd (List.getLast?_eq_none_iff.mp hl) hne
  | some lastRegion =>
    unfold VirtualMachine.add_memory
    simp only [hl]
    cases regRes with
    | error e =>
      refine ⟨fun d hd => ?_, fun hcontra => ?_⟩
      · obtain rfl : _ = d := Option.some.inj hd
        exact hmod
      · exact absurd hcontra (by simp)
    | ok u =>
      refine ⟨fun d hd => ?_, fun _ => ⟨_, rfl, hmod, rfl⟩⟩
      obtain rfl : _ = d := Option.some.inj hd
      exact hmod

/-- Witness for C7 (amended) on a one-region VM with a 4-page request. -/
theorem add_memory_registered_slot_position_witness :
    (([⟨0, ⟨0, 0, 0, 65536, 4096⟩, some ⟨4160, 8192⟩⟩] : List Region) ≠ [] ∧
      ([⟨0, ⟨0, 0, 0, 65536, 4096⟩, some ⟨4160, 8192⟩⟩] : List Region).length
        < U32) ∧
    (∀ d, (VirtualMachine.add_memory
        ⟨0, [⟨0, ⟨0, 0, 0, 65536, 4096⟩, some ⟨4160, 8192⟩⟩], 10, 20⟩
        4 (.ok 1000000) (.ok ())).registered = some d → d.slot = 1) ∧
    ((Except.ok () : Except Err Unit) = .ok () →
      ∃ r, (VirtualMachine.add_memory
          ⟨0, [⟨0, ⟨0, 0, 0, 65536, 4096⟩, some ⟨4160, 8192⟩⟩], 10, 20⟩
          4 (.ok 1000000) (.ok ())).vm.regions =
          [⟨0, ⟨0, 0, 0, 65536, 4096⟩, some ⟨4160, 8192⟩⟩] ++ [r] ∧
        r.kvmRegion.slot = 1 ∧ r.slot = 0) := by
  refine ⟨⟨by decide, by decide⟩, ?_⟩
  exact add_memory_registered_slot_position
    ⟨0, [⟨0, ⟨0, 0, 0, 65536, 4096⟩, some ⟨4160, 8192⟩⟩], 10, 20⟩
    4 1000000 (.ok ()) (by decide) (by decide)

/-- Helper: over any oracle sequence, the ids issued by consecutive
`add_thread` calls starting from counter `c` are `[c, c+1, …]`. -/
theorem runThreads_ids_general (os : List ThreadOracle) :
    ∀ vm : VirtualMachine,
      (runThreads vm os).2 = List.range' vm.id_alloc os.length := by
  induction os with
  | nil => intro vm; rfl
  | cons o os ih =>
    intro vm
    unfold runThreads
    dsimp only
    rw [ih, add_thread_issued, add_thread_alloc_succ, List.length_cons]
    rfl

/-- C5: For every sequence of `add_thread` calls on a VM whose Id Allocator
starts at 0, the ids issued are exactly `0, 1, 2, …` in call order, with
no id ever reused. -/
theorem add_thread_ids_exactly_range (vm : VirtualMachine)
    (os : List ThreadOracle) (h0 : vm.id_alloc = 0) :
    (runThreads vm os).2 = List.range os.length ∧
    (runThreads vm os).2.Nodup := by
  have h := runThreads_ids_general os vm
  rw [h0] at h
  rw [h, ← List.range_eq_range']
  exact ⟨rfl, List.nodup_range os.length⟩

/-- Witness for C5: three calls (the second and third end in the
`unimplemented!()` panic) still issue ids `[0, 1, 2]`. -/
theorem add_thread_ids_exactly_range_witness :
    (0 : Nat) = 0 ∧
    ((runThreads ⟨0, [⟨0, ⟨0, 0, 0, 65536, 4096⟩, some ⟨4160, 8192⟩⟩], 10, 20⟩
        [⟨.ok (), .ok ⟨0, 0, 0⟩, .ok (), .ok (), .ok (), .ok ()⟩,
         ⟨.ok (), .ok ⟨0, 0, 0⟩, .ok (), .ok (), .ok (), .ok ()⟩,
         ⟨.ok (), .ok ⟨0, 0, 0⟩, .ok (), .ok (), .ok (), .ok ()⟩]).2 =
      List.range 3 ∧
     (runThreads ⟨0, [⟨0, ⟨0, 0, 0, 65536, 4096⟩, some ⟨4160, 8192⟩⟩], 10, 20⟩
        [⟨.ok (), .ok ⟨0, 0, 0⟩, .ok (), .ok (), .ok (), .ok ()⟩,
         ⟨.ok (), .ok ⟨0, 0, 0⟩, .ok (), .ok (), .ok (), .ok ()⟩,
         ⟨.ok (), .ok ⟨0, 0, 0⟩, .ok (), .ok (), .ok (), .ok ()⟩]).2.Nodup) :=
  ⟨rfl,
   add_thread_ids_exactly_range
     ⟨0, [⟨0, ⟨0, 0, 0, 65536, 4096⟩, some ⟨4160, 8192⟩⟩], 10, 20⟩
     [⟨.ok (), .ok ⟨0, 0, 0⟩, .ok (), .ok (), .ok (), .ok ()⟩,
      ⟨.ok (), .ok ⟨0, 0, 0⟩, .ok (), .ok (), .ok (), .ok ()⟩,
      ⟨.ok (), .ok ⟨0, 0, 0⟩, .ok (), .ok (), .ok (), .ok ()⟩] rfl⟩

/-- Helper: a contiguous region list with positive lengths is pairwise
ordered (disjoint and strictly increasing). -/
theorem chained_pairwise (l : List Region) (hc : Chained l)
    (hp : SizesPos l) : List.Pairwise RegionOrder l := by
  have htrans : Transitive RegionOrder := by
    intro a b c hab hbc
    refine ⟨le_trans hab.1 (le_trans (Nat.le_add_right _ _) hbc.1),
      lt_trans hab.2 hbc.2⟩
  have hchain : List.Chain' RegionOrder l := by
    clear htrans
    induction l with
    | nil => exact List.chain'_nil
    | cons a t ih =>
      cases t with
      | nil => exact List.chain'_singleton a
      | cons b t2 =>
        unfold Chained at hc
        rw [List.chain'_cons] at hc
        rw [List.chain'_cons]
        obtain ⟨hab, hrest⟩ := hc
        have ha : 0 < a.kvmRegion.memory_size := hp a (List.mem_cons_self a (b :: t2))
        refine ⟨⟨le_of_eq hab.symm, ?_⟩, ?_⟩
        · rw [hab]
          unfold Region.guestEnd
          omega
        · exact ih hrest (fun r hr => hp r (List.mem_cons_of_mem a hr))
  exact (@List.chain'_iff_pairwise Region RegionOrder ⟨htrans⟩ l).mp hchain

/-- Helper: the region list produced by a fully successful `add_memory`
call, given the last region at entry. -/
theorem add_memory_success_regions (vm : VirtualMachine) (pages a : Nat)
    (lastR : Region) (hl : vm.regions.getLast? = some lastR) :
    (vm.add_memory pages (.ok a) (.ok ())).vm.regions =
      vm.regions ++
        [⟨0, ⟨vm.regions.length % U32, 0, lastR.guestEnd % U64,
           (pages % U64) * 4096 % U64, a % U64⟩, none⟩] := by
  unfold VirtualMachine.add_memory
  simp only [hl]
  rfl

/-- Helper: unfolding one step of `runAddMemory`. -/
theorem runAddMemory_cons (vm : VirtualMachine) (c : AddMemCall)
    (cs : List AddMemCall) :
    runAddMemory vm (c :: cs) =
      ((runAddMemory (vm.add_memory c.pages c.mmapRes c.regRes).vm cs).1,
       (vm.add_memory c.pages c.mmapRes c.regRes).outcome ::
         (runAddMemory (vm.add_memory c.pages c.mmapRes c.regRes).vm cs).2) :=
  rfl

/-- Helper: invariant preservation over a whole `add_memory` call sequence:
the region list stays non-empty, contiguous, with positive lengths, and
its guest-physical end grows by at most the total requested size. -/
theorem runAddMemory_wf (cs : List AddMemCall) :
    ∀ vm : VirtualMachine,
      vm.regions ≠ [] → Chained vm.regions → SizesPos vm.regions →
      vm.lastEnd + totalSize cs < U64 → (∀ c ∈ cs, 0 < c.pages) →
      (runAddMemory vm cs).1.regions ≠ [] ∧
      Chained (runAddMemory vm cs).1.regions ∧
      SizesPos (runAddMemory vm cs).1.regions ∧
      (runAddMemory vm cs).1.lastEnd ≤ vm.lastEnd + totalSize cs := by
  induction cs with
  | nil =>
    intro vm h1 h2 h3 _ _
    exact ⟨h1, h2, h3, Nat.le_add_right _ _⟩
  | cons c cs ih =>
    intro vm h1 h2 h3 h4 h5
    obtain ⟨lastR, hl⟩ : ∃ r, vm.regions.getLast? = some r := by
      cases hgl : vm.regions.getLast? with
      | none => exact absurd (List.getLast?_eq_none_iff.mp hgl) h1
      | some r => exact ⟨r, rfl⟩
    have hle : vm.lastEnd = lastR.guestEnd := by
      unfold VirtualMachine.lastEnd
      rw [hl]
      rfl
    have htot : totalSize (c :: cs) = c.pages * 4096 + totalSize cs := rfl
    rw [runAddMemory_cons]
    rcases c with ⟨pages, m, rr⟩
    dsimp only at htot h4 h5 ⊢
    have h5tail : ∀ c ∈ cs, 0 < c.pages :=
      fun c hc => h5 c (List.mem_cons_of_mem _ hc)
    cases m with
    | error e =>
      have hvm : (vm.add_memory pages (.error e) rr).vm = vm := by
        unfold VirtualMachine.add_memory
        simp only [hl]
      rw [hvm]
      have key := ih vm h1 h2 h3 (by omega) h5tail
      exact ⟨key.1, key.2.1, key.2.2.1, by omega⟩
    | ok a =>
      cases rr with
      | error e =>
        have hvm : (vm.add_memory pages (.ok a) (.error e)).vm = vm := by
          unfold VirtualMachine.add_memory
          simp only [hl]
        rw [hvm]
        have key := ih vm h1 h2 h3 (by omega) h5tail
        exact ⟨key.1, key.2.1, key.2.2.1, by omega⟩
      | ok u =>
        have hEnd : lastR.guestEnd < U64 := by omega
        have hms : pages * 4096 < U64 := by omega
        have hpm : pages % U64 = pages := Nat.mod_eq_of_lt (by omega)
        have hreg : (vm.add_memory pages (.ok a) (.ok u)).vm.regions =
            vm.regions ++
              [⟨0, ⟨vm.regions.length % U32, 0, lastR.guestEnd,
                 pages * 4096, a % U64⟩, none⟩] := by
          rw [add_memory_success_regions vm pages a lastR hl, hpm,
            Nat.mod_eq_of_lt hms, Nat.mod_eq_of_lt hEnd]
        have hpages0 : 0 < pages :=
          h5 ⟨pages, .ok a, .ok u⟩ (List.mem_cons_self _ _)
        have hch2 : Chained ((vm.add_memory pages (.ok a) (.ok u)).vm.regions) := by
          rw [hreg]
          refine List.Chain'.append h2 (List.chain'_singleton _) ?_
          intro x hx y hy
          rw [hl] at hx
          obtain rfl : lastR = x := Option.mem_some_iff.mp hx
          obtain rfl : _ = y := Option.mem_some_iff.mp hy
          rfl
        have hsz2 : SizesPos ((vm.add_memory pages (.ok a) (.ok u)).vm.regions) := by
          rw [hreg]
          intro r hr
          rcases List.mem_append.mp hr with h | h
          · exact h3 r h
          · obtain rfl : r = _ := List.mem_singleton.mp h
            exact Nat.mul_pos hpages0 (by omega)
        have hne2 : (vm.add_memory pages (.ok a) (.ok u)).vm.regions ≠ [] := by
          rw [hreg]
          simp
        have hlast2 : (vm.add_memory pages (.ok a) (.ok u)).vm.lastEnd =
            lastR.guestEnd + pages * 4096 := by
          unfold VirtualMachine.lastEnd
          rw [hreg, List.getLast?_concat]
          rfl
        have key := ih (vm.add_memory pages (.ok a) (.ok u)).vm hne2 hch2 hsz2
          (by omega) h5tail
        exact ⟨key.1, key.2.1, key.2.2.1, by omega⟩

/-- C2: For every sequence of successful `add_memory` calls on a well-formed
VM (non-empty, contiguous, positive-length region list) whose total
requested size does not overflow guest-physical space, the resulting
region list is contiguous — each appended region's guest-physical base
equals the previous last region's end — and the regions' guest-physical
ranges are pairwise disjoint and strictly increasing in call order. -/
theorem add_memory_regions_contiguous_disjoint (vm : VirtualMachine)
    (cs : List AddMemCall) (hne : vm.regions ≠ [])
    (hch : Chained vm.regions) (hsz : SizesPos vm.regions)
    (hb : vm.lastEnd + totalSize cs < U64)
    (hp : ∀ c ∈ cs, 0 < c.pages)
    (hok : ∀ o ∈ (runAddMemory vm cs).2, ∃ v, o = RustOutcome.ok v) :
    Chained (runAddMemory vm cs).1.regions ∧
    List.Pairwise RegionOrder (runAddMemory vm cs).1.regions := by
  obtain ⟨-, h2, h3, -⟩ := runAddMemory_wf cs vm hne hch hsz hb hp
  exact ⟨h2, chained_pairwise _ h2 h3⟩

/-- Witness for C2: region 0 of 16 pages, then successful calls of 4 and 2
pages (the scenario of spec §8). -/
theorem add_memory_regions_contiguous_disjoint_witness :
    (([⟨0, ⟨0, 0, 0, 65536, 4096⟩, some ⟨4160, 8192⟩⟩] : List Region) ≠ [] ∧
     Chained [⟨0, ⟨0, 0, 0, 65536, 4096⟩, some ⟨4160, 8192⟩⟩] ∧
     SizesPos [⟨0, ⟨0, 0, 0, 65536, 4096⟩, some ⟨4160, 8192⟩⟩] ∧
     (VirtualMachine.lastEnd
        ⟨0, [⟨0, ⟨0, 0, 0, 65536, 4096⟩, some ⟨4160, 8192⟩⟩], 10, 20⟩) +
       totalSize [⟨4, .ok 1000000, .ok ()⟩, ⟨2, .ok 2000000, .ok ()⟩] < U64 ∧
     (∀ c ∈ ([⟨4, .ok 1000000, .ok ()⟩, ⟨2, .ok 2000000, .ok ()⟩] :
        List AddMemCall), 0 < c.pages)) ∧
    Chained (runAddMemory
      ⟨0, [⟨0, ⟨0, 0, 0, 65536, 4096⟩, some ⟨4160, 8192⟩⟩], 10, 20⟩
      [⟨4, .ok 1000000, .ok ()⟩, ⟨2, .ok 2000000, .ok ()⟩]).1.regions ∧
    List.Pairwise RegionOrder (runAddMemory
      ⟨0, [⟨0, ⟨0, 0, 0, 65536, 4096⟩, some ⟨4160, 8192⟩⟩], 10, 20⟩
      [⟨4, .ok 1000000, .ok ()⟩, ⟨2, .ok 2000000, .ok ()⟩]).1.regions := by
  have hok : ∀ o ∈ (runAddMemory
      ⟨0, [⟨0, ⟨0, 0, 0, 65536, 4096⟩, some ⟨4160, 8192⟩⟩], 10, 20⟩
      [⟨4, .ok 1000000, .ok ()⟩, ⟨2, .ok 2000000, .ok ()⟩]).2,
      ∃ v, o = RustOutcome.ok v := by
    intro o ho
    have hval : (runAddMemory
        ⟨0, [⟨0, ⟨0, 0, 0, 65536, 4096⟩, some ⟨4160, 8192⟩⟩], 10, 20⟩
        [⟨4, .ok 1000000, .ok ()⟩, ⟨2, .ok 2000000, .ok ()⟩]).2 =
        [.ok 1000000, .ok 2000000] := by decide
    rw [hval] at ho
    simp only [List.mem_cons, List.not_mem_nil, or_false] at ho
    rcases ho with rfl | rfl
    · exact ⟨1000000, rfl⟩
    · exact ⟨2000000, rfl⟩
  refine ⟨⟨by decide, List.chain'_singleton _, by decide, by decide, by decide⟩, ?_⟩
  exact add_memory_regions_contiguous_disjoint
    ⟨0, [⟨0, ⟨0, 0, 0, 65536, 4096⟩, some ⟨4160, 8192⟩⟩], 10, 20⟩
    [⟨4, .ok 1000000, .ok ()⟩, ⟨2, .ok 2000000, .ok ()⟩]
    (by decide) (List.chain'_singleton _) (by decide) (by decide) (by decide) hok
